import Mathlib

/-!
Verification of the mynet-local news aggregation pipeline (src/app.py).

The development shallowly embeds the pure core of the program: the
relevance filter, the link resolver, the feed entry normalizer, the image
enricher, the TTL result cache and the aggregation orchestrator.  Network
and HTML-parsing collaborators (requests.Session, feedparser,
BeautifulSoup) are external libraries; calls into them are modelled as
explicit oracle parameters, while every piece of logic written in app.py
itself is translated directly.  Python exceptions are modelled with
Except, Python string falsiness with explicit emptiness tests, and the
process-wide CACHE dictionary with explicit store passing.
-/

namespace App

/-- Kinds of Python exceptions distinguished by the model. -/
inductive PyErr where
  | typeError
  | binasciiError
  | httpError
  | parseError
deriving Repr, DecidableEq

/-- Python substring membership, the in operator on str, over code points
(a needle is searched in a haystack; the empty needle is always found). -/
def chContains : List Char → List Char → Bool
  | [], pat => pat.isEmpty
  | c :: rest, pat => pat.isPrefixOf (c :: rest) || chContains rest pat

/-- Python needle in haystack for strings. -/
def pyIn (needle hay : String) : Bool :=
  chContains hay.data needle.data

/-- Split a character list at the first occurrence of a nonempty pattern,
returning the part before it and the part after it.  Returns none when
the pattern does not occur.  This models one step of str.split. -/
def chFindSplit : List Char → List Char → Option (List Char × List Char)
  | [], pat => if pat.isEmpty then some ([], []) else none
  | c :: rest, pat =>
      if pat.isPrefixOf (c :: rest) then some ([], (c :: rest).drop pat.length)
      else match chFindSplit rest pat with
        | some (pre, post) => some (c :: pre, post)
        | none => none

/-- Python s.rsplit(sep, 1)[0]: everything before the last occurrence of
sep, or the whole string when sep does not occur.  Implemented by
searching for the reversed separator in the reversed string, which finds
exactly the rightmost occurrence. -/
def pyRsplitOnceHead (s sep : String) : String :=
  match chFindSplit s.data.reverse sep.data.reverse with
  | none => s
  | some (_, postR) => String.mk postR.reverse

/-- Python str.lower for one code point, modelled on the repertoire this
program exercises: ASCII letters and the Turkish letters appearing in the
district list and in the feed titles.  The capital dotted I maps to the
two code points i followed by a combining dot above, exactly as CPython
does; other letters lower within the same code point. -/
def pyLowerChar (c : Char) : List Char :=
  if c = ('İ') then [('i'), ('̇')]
  else if c = ('Ç') then [('ç')]
  else if c = ('Ğ') then [('ğ')]
  else if c = ('Ö') then [('ö')]
  else if c = ('Ş') then [('ş')]
  else if c = ('Ü') then [('ü')]
  else if c.isUpper then [c.toLower]
  else [c]

/-- Python str.lower over a whole string. -/
def pyLower (s : String) : String :=
  String.mk (s.data.map pyLowerChar).flatten

/-- Python truthiness of an optional string: None and the empty string
are falsy. -/
def pyTruthyOptStr : Option String → Bool
  | none => false
  | some s => !s.isEmpty

/-- The fixed list of Istanbul district names from app.py (lines 22 to
29).  The source lists 39 names. -/
def IST_DISTRICTS : List String :=
  ["adalar", "arnavutköy", "ataşehir", "avcılar", "bağcılar", "bahçelievler", "bakırköy",
   "başakşehir", "bayrampaşa", "beşiktaş", "beykoz", "beylikdüzü", "beyoğlu", "büyükçekmece",
   "çatalca", "çekmeköy", "esenler", "esenyurt", "eyüpsultan", "fatih", "gaziosmanpaşa",
   "güngören", "kadıköy", "kağıthane", "kartal", "küçükçekmece", "maltepe", "pendik",
   "sancaktepe", "sarıyer", "silivri", "sultanbeyli", "sultangazi", "şile", "şişli",
   "tuzla", "ümraniye", "üsküdar", "zeytinburnu"]

/-- The relevance filter is_istanbul_related of app.py (lines 31 to 40).
Absent arguments stand for Python None; title or "" collapses None (and
the empty string) to the empty string. -/
def is_istanbul_related (title : Option String) (link : Option String) : Bool :=
  let t := pyLower (title.getD (""))
  let l := pyLower (link.getD (""))
  if pyIn ("istanbul") t || pyIn ("i̇stanbul") t || pyIn ("istanbul") l then true
  else IST_DISTRICTS.any (fun d => pyIn d t)

/-- Whether a character belongs to the standard base64 alphabet. -/
def isB64Char (c : Char) : Bool :=
  (('A') ≤ c && c ≤ ('Z')) || (('a') ≤ c && c ≤ ('z')) ||
  (('0') ≤ c && c ≤ ('9')) || c = ('+') || c = ('/')

/-- Value of a base64 alphabet character. -/
def b64Val (c : Char) : Nat :=
  if ('A') ≤ c && c ≤ ('Z') then c.toNat - 65
  else if ('a') ≤ c && c ≤ ('z') then c.toNat - 97 + 26
  else if ('0') ≤ c && c ≤ ('9') then c.toNat - 48 + 52
  else if c = ('+') then 62
  else 63

/-- Reassemble 6-bit groups into bytes; a trailing group of two sextets
yields one byte and a trailing group of three yields two, as in CPython
lenient base64 decoding. -/
def b64Bytes : List Nat → List Nat
  | a :: b :: c :: d :: rest =>
      let n := ((a * 64 + b) * 64 + c) * 64 + d
      (n / 65536) :: (n / 256 % 256) :: (n % 256) :: b64Bytes rest
  | [a, b] => [(a * 64 + b) / 16]
  | [a, b, c] => [((a * 64 + b) * 64 + c) / 4 / 256, ((a * 64 + b) * 64 + c) / 4 % 256]
  | _ => []

/-- CPython base64.b64decode in its default lenient mode, checked against
CPython 3: characters outside the alphabet (including the padding sign)
are discarded; a data-character count congruent to 1 modulo 4 raises
binascii.Error, a count not a multiple of 4 with no padding sign present
raises Incorrect padding, and otherwise the data characters decode with
a short trailing group truncated.  The program only ever calls this with
three padding signs appended. -/
def b64decodePy (chars : List Char) : Except PyErr (List Nat) :=
  let data := chars.filter isB64Char
  let hasPad := chars.any (fun c => c = ('='))
  if data.length % 4 = 1 then .error .binasciiError
  else if data.length % 4 ≠ 0 && !hasPad then .error .binasciiError
  else .ok (b64Bytes (data.map b64Val))

/-- Whether a byte is a UTF-8 continuation byte. -/
def isCont (b : Nat) : Bool := 128 ≤ b && b ≤ 191

/-- One pass of the UTF-8 decoder, with fuel bounding the recursion by
the number of remaining bytes; every step consumes at least one byte, so
fuel equal to the length is enough. -/
def utf8Go : Nat → List Nat → List Char
  | 0, _ => []
  | _, [] => []
  | fuel + 1, b :: rest =>
      if b < 128 then Char.ofNat b :: utf8Go fuel rest
      else if 194 ≤ b && b ≤ 223 then
        match rest with
        | c :: rest2 =>
            if isCont c then Char.ofNat ((b - 192) * 64 + (c - 128)) :: utf8Go fuel rest2
            else utf8Go fuel (c :: rest2)
        | [] => []
      else if 224 ≤ b && b ≤ 239 then
        match rest with
        | c :: d :: rest2 =>
            if isCont c && isCont d && !(b = 224 && c < 160) && !(b = 237 && c > 159) then
              Char.ofNat (((b - 224) * 64 + (c - 128)) * 64 + (d - 128)) :: utf8Go fuel rest2
            else utf8Go fuel (c :: d :: rest2)
        | _ => []
      else if 240 ≤ b && b ≤ 244 then
        match rest with
        | c :: d :: e :: rest2 =>
            if isCont c && isCont d && isCont e && !(b = 240 && c < 144) && !(b = 244 && c > 143) then
              Char.ofNat ((((b - 240) * 64 + (c - 128)) * 64 + (d - 128)) * 64 + (e - 128)) ::
                utf8Go fuel rest2
            else utf8Go fuel (c :: d :: e :: rest2)
        | _ => []
      else utf8Go fuel rest

/-- Python bytes.decode("utf-8", errors="ignore"): a standard UTF-8
decode in which undecodable bytes are dropped rather than raising. -/
def utf8DecodeIgnore (bytes : List Nat) : List Char :=
  utf8Go bytes.length bytes

/-- Characters that terminate the URL character class of the pattern
https?://[^\s|\x22\x27>]+ in app.py line 102: regex whitespace and the
four listed delimiters. -/
def isStopChar (c : Char) : Bool :=
  c = (' ') || c = ('\t') || c = ('\n') || c = ('\x0d') || c = ('\x0b') || c = ('\x0c') ||
  c = ('|') || c = ('\x22') || c = ('\x27') || c = ('>')

/-- The one-or-more character class following the scheme: the maximal
nonempty run of non-stop characters, none when that run is empty. -/
def urlBody (rest2 : List Char) : Option (List Char) :=
  let body := rest2.takeWhile (fun c => !isStopChar c)
  if body.isEmpty then none else some body

/-- Attempt to match the pattern https?://[^...]+ at the head of the
character list, covering both alternatives of the optional s. -/
def tryHttpAt (l : List Char) : Option (List Char) :=
  match l with
  | 'h' :: 't' :: 't' :: 'p' :: rest =>
      match rest with
      | 's' :: ':' :: '/' :: '/' :: rest2 =>
          match urlBody rest2 with
          | some body => some (['h', 't', 't', 'p', 's', ':', '/', '/'] ++ body)
          | none => none
      | ':' :: '/' :: '/' :: rest2 =>
          match urlBody rest2 with
          | some body => some (['h', 't', 't', 'p', ':', '/', '/'] ++ body)
          | none => none
      | _ => none
  | _ => none

/-- Python re.search for the pattern of app.py line 102: the leftmost
match wins, scanning start positions left to right. -/
def findFirstHttpUrl : List Char → Option (List Char)
  | [] => none
  | c :: rest =>
      match tryHttpAt (c :: rest) with
      | some m => some m
      | none => findFirstHttpUrl rest

/-- The token extraction of app.py line 99: Python split on articles/
takes element 1, the text between the first and second occurrence (or
the end), then split on the question mark takes element 0.  The none
result mirrors the IndexError a missing second piece would raise, which
the enclosing bare except turns into the unchanged input. -/
def articlesToken (source_url : String) : Option (List Char) :=
  match chFindSplit source_url.data ("articles/").data with
  | none => none
  | some (_, after1) =>
      let piece1 := match chFindSplit after1 ("articles/").data with
        | some (pre, _) => pre
        | none => after1
      match chFindSplit piece1 ("?").data with
      | some (pre, _) => some pre
      | none => some piece1

/-- The link resolver decode_url of app.py (lines 94 to 105).  The guard
tests substring containment of the redirect-host text and the articles/
path text in the whole URL; the extracted token gains three padding
signs before base64 decoding; the decoded bytes are read as UTF-8 with
undecodable bytes ignored; the first embedded http or https URL is
returned, and every failure path returns the input. -/
def decode_url (source_url : String) : String :=
  if !(pyIn ("news.google.com") source_url) || !(pyIn ("articles/") source_url) then source_url
  else
    match articlesToken source_url with
    | none => source_url
    | some token =>
        match b64decodePy (token ++ ("===").data) with
        | .error _ => source_url
        | .ok bytes =>
            match findFirstHttpUrl (utf8DecodeIgnore bytes) with
            | some m => String.mk m
            | none => source_url

/-- An HTML element as BeautifulSoup exposes it to this program: a tag
name and an attribute mapping.  A parsed document is the sequence of its
elements in document order; find returns the first matching element. -/
structure Tag where
  name : String
  attrs : List (String × String)
deriving Repr, DecidableEq

/-- An HTTP response as requests exposes it here: status code and body
text. -/
structure HttpResp where
  status : Nat
  text : String
deriving Repr, DecidableEq

/-- First value bound to a key in an attribute mapping. -/
def attrLookup (d : List (String × String)) (k : String) : Option String :=
  match d.find? (fun p => p.1 == k) with
  | some p => some p.2
  | none => none

/-- Python d.get(key, default). -/
def pyGetD (d : List (String × String)) (k dflt : String) : String :=
  (attrLookup d k).getD dflt

/-- BeautifulSoup soup.find(name, attribute filters): the first element
with the given tag name whose attributes bind every filtered key to the
required value. -/
def findTag (doc : List Tag) (nm : String) (conds : List (String × String)) : Option Tag :=
  doc.find? (fun t => t.name == nm && conds.all (fun c => attrLookup t.attrs c.1 == some c.2))

/-- The img fallback of get_real_image (app.py lines 161 to 163): the
first img element yields src or data-src or data-lazy-src chained by
Python or, so the last operand is returned even when falsy. -/
def imgSrcOf (soup : List Tag) : Option String :=
  match findTag soup ("img") [] with
  | some img =>
      if pyTruthyOptStr (attrLookup img.attrs ("src")) then attrLookup img.attrs ("src")
      else if pyTruthyOptStr (attrLookup img.attrs ("data-src")) then attrLookup img.attrs ("data-src")
      else attrLookup img.attrs ("data-lazy-src")
  | none => none

/-- The image scraper get_real_image of app.py (lines 144 to 167).  The
HTTP fetch and the HTML parse are oracles; any oracle failure is caught
by the bare except and yields none.  The body is truncated to its first
140000 code points before parsing.  A meta tag found for og:image is
truthy even without content, so an og:image tag with absent or empty
content falls through to the img branch, not to the twitter branch. -/
def get_real_image (httpGet : String → Except PyErr HttpResp)
    (parseHtml : String → Except PyErr (List Tag)) (url : String) : Option String :=
  if url.isEmpty then none
  else match httpGet url with
    | .error _ => none
    | .ok r =>
        if 400 ≤ r.status then none
        else match parseHtml (String.mk (r.text.data.take 140000)) with
          | .error _ => none
          | .ok soup =>
              let og := match findTag soup ("meta") [(("property"), ("og:image"))] with
                | some t => some t
                | none => findTag soup ("meta") [(("name"), ("twitter:image"))]
              match og with
              | some t =>
                  if pyTruthyOptStr (attrLookup t.attrs ("content")) then
                    attrLookup t.attrs ("content")
                  else imgSrcOf soup
              | none => imgSrcOf soup

/-- A raw feed entry as feedparser exposes it to this program.  Absent
fields stand for keys the feed did not provide; media-content,
media-thumbnail and link-relation lists carry attribute mappings. -/
structure Entry where
  title : Option String
  link : Option String
  published_parsed : Option (List Int)
  media_content : Option (List (List (String × String)))
  media_thumbnail : Option (List (List (String × String)))
  links : Option (List (List (String × String)))
  summary : Option String
  source : Option (List (String × String))
deriving Repr

/-- The feed-entry image extractor pick_image_from_entry of app.py
(lines 107 to 142): media content first, then media thumbnail, then an
enclosure link relation with an image type, then the first img of the
parsed summary.  Each candidate is returned only when truthy, except the
final summary img chain, which is returned as computed; a summary parse
failure is swallowed into none. -/
def pick_image_from_entry (parseHtml : String → Except PyErr (List Tag)) (e : Entry) :
    Option String :=
  let mcR := match e.media_content with
    | some (d :: _) => if pyTruthyOptStr (attrLookup d ("url")) then attrLookup d ("url") else none
    | _ => none
  match mcR with
  | some u => some u
  | none =>
  let mtR := match e.media_thumbnail with
    | some (d :: _) => if pyTruthyOptStr (attrLookup d ("url")) then attrLookup d ("url") else none
    | _ => none
  match mtR with
  | some u => some u
  | none =>
  let encR := match e.links with
    | some ls =>
        match ls.find? (fun l => attrLookup l ("rel") == some ("enclosure")
            && (pyGetD l ("type") ("")).startsWith ("image/")
            && pyTruthyOptStr (attrLookup l ("href"))) with
        | some l => attrLookup l ("href")
        | none => none
    | none => none
  match encR with
  | some u => some u
  | none =>
  let s := e.summary.getD ("")
  if !s.isEmpty && pyIn ("<img") s then
    match parseHtml s with
    | .error _ => none
    | .ok soup =>
        match findTag soup ("img") [] with
        | some img =>
            if pyTruthyOptStr (attrLookup img.attrs ("src")) then attrLookup img.attrs ("src")
            else if pyTruthyOptStr (attrLookup img.attrs ("data-src")) then
              attrLookup img.attrs ("data-src")
            else attrLookup img.attrs ("data-lazy-src")
        | none => none
  else none

/-- Days in a month of the proleptic Gregorian calendar, as datetime
validates them. -/
def daysInMonth (y m : Int) : Int :=
  if m = 2 then (if (y % 4 = 0 && y % 100 ≠ 0) || y % 400 = 0 then 29 else 28)
  else if m = 4 || m = 6 || m = 9 || m = 11 then 30 else 31

/-- Two-digit zero-padded rendering of a small nonnegative number, as
strftime prints hours and minutes. -/
def pad2 (n : Int) : String :=
  if n < 10 then ("0") ++ toString n else toString n

/-- The time formatter format_time of app.py (lines 169 to 176):
datetime built from the first six fields of the published time tuple,
printed hour colon minute; a missing tuple, too few fields or an out of
range field raises inside the try and yields the placeholder. -/
def format_time (e : Entry) : String :=
  match e.published_parsed with
  | none => "--:--"
  | some l =>
      if l.isEmpty then "--:--"
      else
        let p := l.take 6
        if p.length < 3 then "--:--"
        else
          let y := p.getD 0 0
          let mo := p.getD 1 0
          let d := p.getD 2 0
          let h := p.getD 3 0
          let mi := p.getD 4 0
          let s := p.getD 5 0
          if 1 ≤ y && y ≤ 9999 && 1 ≤ mo && mo ≤ 12 && 1 ≤ d && d ≤ daysInMonth y mo
              && 0 ≤ h && h ≤ 23 && 0 ≤ mi && mi ≤ 59 && 0 ≤ s && s ≤ 59 then
            pad2 h ++ (":") ++ pad2 mi
          else "--:--"

/-- One aggregated news item as assembled by fetch_google_news. -/
structure NewsItem where
  title : String
  link : String
  image : Option String
  source : String
  date : String
  district : String
deriving Repr, DecidableEq

/-- The process-wide CACHE dictionary: cache keys bound to an expiry
time paired with a payload. -/
abbrev Store := List (String × (Int × List NewsItem))

/-- Dictionary lookup in the store. -/
def storeGet (st : Store) (k : String) : Option (Int × List NewsItem) :=
  match st.find? (fun p => p.1 == k) with
  | some p => some p.2
  | none => none

/-- Dictionary assignment in the store: replace the binding of the key
or append a fresh one. -/
def storeSet (st : Store) (k : String) (v : Int × List NewsItem) : Store :=
  match st with
  | [] => [(k, v)]
  | (k2, v2) :: rest => if k2 == k then (k, v) :: rest else (k2, v2) :: storeSet rest k v

/-- Dictionary pop in the store: drop the binding of the key. -/
def storePop (st : Store) (k : String) : Store :=
  match st with
  | [] => []
  | (k2, v2) :: rest => if k2 == k then rest else (k2, v2) :: storePop rest k

/-- The cache TTL of app.py line 77, in seconds. -/
def CACHE_TTL : Int := 180

/-- The cache reader cache_get of app.py (lines 79 to 88), with the
clock and the store passed explicitly.  An expired entry is popped
lazily and reads as absent; the stored tuple itself is always truthy, so
an empty payload is still returned on an unexpired hit. -/
def cache_get (now : Int) (st : Store) (key : String) : Option (List NewsItem) × Store :=
  match storeGet st key with
  | none => (none, st)
  | some (exp, data) => if now > exp then (none, storePop st key) else (some data, st)

/-- The cache writer cache_set of app.py (lines 90 to 91). -/
def cache_set (now : Int) (st : Store) (key : String) (data : List NewsItem)
    (ttl : Int) : Store :=
  storeSet st key (now + ttl, data)

/-- The Python sort key of app.py line 191: the published time tuple
when the entry carries one, the integer 0 otherwise (the or fallback
reaches getattr only when the key is missing, whose default is 0). -/
inductive PyKey where
  | time (t : List Int)
  | int (n : Int)
deriving Repr, DecidableEq

/-- Python tuple comparison: lexicographic, shorter tuples first. -/
def cmpLex : List Int → List Int → Ordering
  | [], [] => .eq
  | [], _ :: _ => .lt
  | _ :: _, [] => .gt
  | a :: as, b :: bs => match compare a b with
      | .eq => cmpLex as bs
      | o => o

/-- Python comparison of two sort keys.  A time tuple and an integer do
not compare in Python 3: the interpreter raises TypeError. -/
def cmpKey : PyKey → PyKey → Except PyErr Ordering
  | .time a, .time b => .ok (cmpLex a b)
  | .int a, .int b => .ok (compare a b)
  | _, _ => .error .typeError

/-- The sort key applied to a feed entry (app.py line 191). -/
def entryKey (e : Entry) : PyKey :=
  match e.published_parsed with
  | some t => .time t
  | none => .int 0

/-- Insert an element into a descending sorted accumulator, placing it
after every element whose key is greater than or equal, which preserves
the stability of the Python sort. -/
def insertDesc (key : α → PyKey) (a : α) : List α → Except PyErr (List α)
  | [] => .ok [a]
  | b :: bs =>
      match cmpKey (key a) (key b) with
      | .error e => .error e
      | .ok .gt => .ok (a :: b :: bs)
      | .ok _ =>
          match insertDesc key a bs with
          | .error e => .error e
          | .ok r => .ok (b :: r)

/-- Stable descending insertion sort threading the element order of the
input, modelling sorted(..., key=..., reverse=True) of app.py line 189;
like the Python sort it propagates the TypeError a mixed-type key
comparison raises. -/
def sortDescByAux (key : α → PyKey) : List α → List α → Except PyErr (List α)
  | [], acc => .ok acc
  | a :: rest, acc =>
      match insertDesc key a acc with
      | .error e => .error e
      | .ok acc2 => sortDescByAux key rest acc2

/-- Sort a list descending by key, stably. -/
def sortDescBy (key : α → PyKey) (l : List α) : Except PyErr (List α) :=
  sortDescByAux key l []

/-- Python raw title extraction of app.py line 199: absent and empty
titles collapse to the empty string. -/
def rawTitle (e : Entry) : String := e.title.getD ("")

/-- Python raw link extraction of app.py line 202: absent and empty
links collapse to the empty string. -/
def rawLink (e : Entry) : String := e.link.getD ("")

/-- One normalized news item as the loop body of fetch_google_news
(app.py lines 198 to 226) builds it, before the strict filter decides
whether it is kept. -/
def mkNewsItem (parseHtml : String → Except PyErr (List Tag)) (district : String) (e : Entry) :
    NewsItem :=
  { title := pyRsplitOnceHead (rawTitle e) (" - ")
    link := decode_url (rawLink e)
    image := pick_image_from_entry parseHtml e
    source := match e.source with
      | some d => if d.isEmpty then "Haber" else pyGetD d ("title") ("Haber")
      | none => "Haber"
    date := format_time e
    district := district }

/-- The normalize-and-filter loop of fetch_google_news (app.py lines
198 to 226): every entry is normalized, and with the strict flag set an
item failing the relevance filter on its cleaned title and resolved
link is dropped. -/
def buildResults (parseHtml : String → Except PyErr (List Tag)) (district : String)
    (strict : Bool) : List Entry → List NewsItem
  | [] => []
  | e :: rest =>
      let item := mkNewsItem parseHtml district e
      if strict && !(is_istanbul_related (some item.title) (some item.link)) then
        buildResults parseHtml district strict rest
      else item :: buildResults parseHtml district strict rest

/-- Replace the element at an index, leaving the list unchanged when the
index is out of range. -/
def listModify : List α → Nat → (α → α) → List α
  | [], _, _ => []
  | a :: rest, 0, f => f a :: rest
  | a :: rest, n + 1, f => a :: listModify rest n f

/-- The scheme upgrade of app.py lines 241 to 242: replace the first
occurrence of the insecure scheme text, applied only under a startswith
guard. -/
def upgradeScheme (img : String) : String :=
  if img.startsWith ("http://") then
    match chFindSplit img.data ("http://").data with
    | some (pre, post) => String.mk (pre ++ ("https://").data ++ post)
    | none => img
  else img

/-- One write-back of the enrichment loop of app.py lines 236 to 245:
a truthy fetched image is upgraded and stored at its originating index,
anything else leaves the list unchanged. -/
def enrichStep (getImage : String → Option String) (res : List NewsItem) (q : Nat × String) :
    List NewsItem :=
  match getImage q.2 with
  | some img =>
      if img.isEmpty then res
      else listModify res q.1 (fun it => { it with image := some (upgradeScheme img) })
  | none => res

/-- The scrape queue of app.py lines 229 to 231: the indices and links
of the first twelve results that lack a truthy image. -/
def scrapeQueue (results : List NewsItem) : List (Nat × String) :=
  ((results.take 12).enum.filter (fun p => !pyTruthyOptStr p.2.image)).map
    (fun p => (p.1, p.2.link))

/-- The enrichment batch of app.py lines 228 to 245.  Completion order
does not affect the outcome because each future writes to its own
index, so the batch is modelled as a fold over the queue. -/
def enrichImages (results : List NewsItem) (getImage : String → Option String) :
    List NewsItem :=
  (scrapeQueue results).foldl (enrichStep getImage) results

/-- The cache key of app.py line 180, an f-string over district, query,
limit and the strict flag. -/
def cache_key_of (district query : String) (limit : Nat) (strict : Bool) : String :=
  district ++ (":") ++ query ++ (":") ++ toString limit ++ (":")
    ++ (if strict then ("True") else ("False"))

/-- The fresh-fetch path of fetch_google_news (app.py lines 185 to 248),
entered when the cache yields nothing truthy: sort the feed entries
descending by published time, truncate to the limit, normalize and
filter, enrich the first twelve image-less survivors, store and return.
The parsed feed stands in for feedparser.parse of the search URL. -/
def fetch_fresh (feed : List Entry) (httpGet : String → Except PyErr HttpResp)
    (parseHtml : String → Except PyErr (List Tag)) (now : Int) (st : Store)
    (query district : String) (limit : Nat) (strict_istanbul : Bool) (cache_key : String) :
    Except PyErr (List NewsItem × Store) :=
  match sortDescBy entryKey feed with
  | .error e => .error e
  | .ok sortedE =>
      let entries := sortedE.take limit
      let results := buildResults parseHtml district strict_istanbul entries
      let results2 := enrichImages results (get_real_image httpGet parseHtml)
      let st2 := cache_set now st cache_key results2 CACHE_TTL
      .ok (results2, st2)

/-- The aggregation orchestrator fetch_google_news of app.py (lines 179
to 248).  The truthiness test on the cached value means an unexpired
empty payload does not short-circuit: only a nonempty cached list is
returned directly. -/
def fetch_google_news (feed : List Entry) (httpGet : String → Except PyErr HttpResp)
    (parseHtml : String → Except PyErr (List Tag)) (now : Int) (st : Store)
    (query district : String) (limit : Nat) (strict_istanbul : Bool) :
    Except PyErr (List NewsItem × Store) :=
  let cache_key := cache_key_of district query limit strict_istanbul
  match cache_get now st cache_key with
  | (some cached, st1) =>
      if cached.isEmpty then
        fetch_fresh feed httpGet parseHtml now st1 query district limit strict_istanbul cache_key
      else .ok (cached, st1)
  | (none, st1) =>
      fetch_fresh feed httpGet parseHtml now st1 query district limit strict_istanbul cache_key

/-! Helper lemmas about the store, the sort, the normalizer loop and the
enrichment fold.  These are shared infrastructure for the claim
theorems. -/

theorem storeGet_storeSet (st : Store) (k : String) (v : Int × List NewsItem) :
    storeGet (storeSet st k v) k = some v := by
  induction st with
  | nil => simp [storeSet, storeGet]
  | cons p rest ih =>
      obtain ⟨k2, v2⟩ := p
      by_cases h : k2 = k
      · simp [storeSet, storeGet, h]
      · simpa [storeSet, storeGet, h] using ih

theorem insertDesc_length {key : α → PyKey} {a : α} :
    ∀ {acc out : List α}, insertDesc key a acc = .ok out → out.length = acc.length + 1 := by
  intro acc
  induction acc with
  | nil =>
      intro out h
      simp only [insertDesc] at h
      cases h
      rfl
  | cons b bs ih =>
      intro out h
      simp only [insertDesc] at h
      split at h
      · cases h
      · cases h
        rfl
      · split at h
        · cases h
        · cases h
          rename_i hr
          simp [ih hr]

theorem insertDesc_mem {key : α → PyKey} {a : α} :
    ∀ {acc out : List α}, insertDesc key a acc = .ok out → ∀ x ∈ out, x = a ∨ x ∈ acc := by
  intro acc
  induction acc with
  | nil =>
      intro out h
      simp only [insertDesc] at h
      cases h
      intro x hx
      simp at hx
      simp [hx]
  | cons b bs ih =>
      intro out h
      simp only [insertDesc] at h
      split at h
      · cases h
      · cases h
        intro x hx
        rcases List.mem_cons.mp hx with hx | hx
        · left; exact hx
        · right; exact hx
      · split at h
        · cases h
        · cases h
          rename_i hr
          intro x hx
          rcases List.mem_cons.mp hx with hx | hx
          · right; simp [hx]
          · rcases ih hr x hx with hx2 | hx2
            · left; exact hx2
            · right; simp [hx2]

theorem sortDescByAux_length {key : α → PyKey} :
    ∀ {l acc out : List α}, sortDescByAux key l acc = .ok out →
      out.length = acc.length + l.length := by
  intro l
  induction l with
  | nil =>
      intro acc out h
      simp only [sortDescByAux] at h
      cases h
      simp
  | cons a rest ih =>
      intro acc out h
      simp only [sortDescByAux] at h
      split at h
      · cases h
      · rename_i acc2 ha
        have h2 := ih h
        have h3 := insertDesc_length ha
        simp only [List.length_cons]
        omega

theorem sortDescByAux_mem {key : α → PyKey} :
    ∀ {l acc out : List α}, sortDescByAux key l acc = .ok out →
      ∀ x ∈ out, x ∈ l ∨ x ∈ acc := by
  intro l
  induction l with
  | nil =>
      intro acc out h x hx
      simp only [sortDescByAux] at h
      cases h
      right; exact hx
  | cons a rest ih =>
      intro acc out h x hx
      simp only [sortDescByAux] at h
      split at h
      · cases h
      · rename_i acc2 ha
        rcases ih h x hx with hx2 | hx2
        · left; simp [hx2]
        · rcases insertDesc_mem ha x hx2 with hx3 | hx3
          · left; simp [hx3]
          · right; exact hx3

theorem sortDescBy_length {key : α → PyKey} {l out : List α}
    (h : sortDescBy key l = .ok out) : out.length = l.length := by
  have := sortDescByAux_length h
  simpa using this

theorem sortDescBy_mem {key : α → PyKey} {l out : List α}
    (h : sortDescBy key l = .ok out) : ∀ x ∈ out, x ∈ l := by
  intro x hx
  rcases sortDescByAux_mem h x hx with h2 | h2
  · exact h2
  · cases h2

theorem buildResults_length_le (parseHtml : String → Except PyErr (List Tag))
    (district : String) (strict : Bool) :
    ∀ es : List Entry, (buildResults parseHtml district strict es).length ≤ es.length := by
  intro es
  induction es with
  | nil => simp [buildResults]
  | cons e rest ih =>
      simp only [buildResults]
      split
      · exact Nat.le_succ_of_le ih
      · simpa using Nat.succ_le_succ ih

theorem buildResults_mem (parseHtml : String → Except PyErr (List Tag))
    (district : String) (strict : Bool) :
    ∀ es : List Entry, ∀ it ∈ buildResults parseHtml district strict es,
      ∃ e ∈ es, it = mkNewsItem parseHtml district e := by
  intro es
  induction es with
  | nil => simp [buildResults]
  | cons e rest ih =>
      intro it hit
      simp only [buildResults] at hit
      split at hit
      · rcases ih it hit with ⟨e2, he2, heq⟩
        exact ⟨e2, by simp [he2], heq⟩
      · rcases List.mem_cons.mp hit with hit2 | hit2
        · exact ⟨e, by simp, hit2⟩
        · rcases ih it hit2 with ⟨e2, he2, heq⟩
          exact ⟨e2, by simp [he2], heq⟩

theorem listModify_length (f : α → α) : ∀ (l : List α) (i : Nat),
    (listModify l i f).length = l.length := by
  intro l
  induction l with
  | nil => intro i; rfl
  | cons a rest ih =>
      intro i
      cases i with
      | zero => rfl
      | succ n => simp [listModify, ih]

theorem listModify_getElem?_self (f : α → α) : ∀ (l : List α) (i : Nat),
    (listModify l i f)[i]? = (l[i]?).map f := by
  intro l
  induction l with
  | nil => intro i; simp [listModify]
  | cons a rest ih =>
      intro i
      cases i with
      | zero => simp [listModify]
      | succ n => simpa [listModify] using ih n

theorem listModify_getElem?_ne (f : α → α) : ∀ (l : List α) (i j : Nat), i ≠ j →
    (listModify l i f)[j]? = l[j]? := by
  intro l
  induction l with
  | nil => intro i j _; simp [listModify]
  | cons a rest ih =>
      intro i j hne
      cases i with
      | zero =>
          cases j with
          | zero => exact absurd rfl hne
          | succ m => simp [listModify]
      | succ n =>
          cases j with
          | zero => simp [listModify]
          | succ m => simpa [listModify] using ih n m (by omega)

/-- The transformation the enrichment loop applies to the item at a
queued index whose stored link is l: a truthy fetched image is upgraded
and stored, anything else leaves the item unchanged. -/
def applyFetchAt (getImage : String → Option String) (l : String) (it : NewsItem) : NewsItem :=
  match getImage l with
  | some img =>
      if img.isEmpty then it else { it with image := some (upgradeScheme img) }
  | none => it

theorem enrichStep_length (getImage : String → Option String) (res : List NewsItem)
    (q : Nat × String) : (enrichStep getImage res q).length = res.length := by
  unfold enrichStep
  split
  · split
    · rfl
    · exact listModify_length _ _ _
  · rfl

theorem enrichStep_getElem?_self (getImage : String → Option String) (res : List NewsItem)
    (i : Nat) (l : String) :
    (enrichStep getImage res (i, l))[i]? = (res[i]?).map (applyFetchAt getImage l) := by
  unfold enrichStep applyFetchAt
  cases hg : getImage l with
  | none => simp
  | some img =>
      by_cases he : img.isEmpty
      · simp [he]
      · simp only [he, if_false]
        exact listModify_getElem?_self _ _ _

theorem enrichStep_getElem?_ne (getImage : String → Option String) (res : List NewsItem)
    (q : Nat × String) (j : Nat) (hne : q.1 ≠ j) :
    (enrichStep getImage res q)[j]? = res[j]? := by
  unfold enrichStep
  split
  · split
    · rfl
    · exact listModify_getElem?_ne _ _ _ _ hne
  · rfl

theorem enrichFold_length (getImage : String → Option String) :
    ∀ (Q : List (Nat × String)) (res : List NewsItem),
      (Q.foldl (enrichStep getImage) res).length = res.length := by
  intro Q
  induction Q with
  | nil => intro res; rfl
  | cons q rest ih =>
      intro res
      simp only [List.foldl_cons]
      rw [ih, enrichStep_length]

theorem enrichFold_getElem?_untouched (getImage : String → Option String) :
    ∀ (Q : List (Nat × String)) (res : List NewsItem) (i : Nat),
      i ∉ Q.map Prod.fst → (Q.foldl (enrichStep getImage) res)[i]? = res[i]? := by
  intro Q
  induction Q with
  | nil => intro res i _; rfl
  | cons q rest ih =>
      intro res i hni
      simp only [List.map_cons, List.mem_cons] at hni
      push_neg at hni
      simp only [List.foldl_cons]
      rw [ih (enrichStep getImage res q) i hni.2]
      exact enrichStep_getElem?_ne getImage res q i (Ne.symm hni.1)

theorem enrichFold_getElem?_touched (getImage : String → Option String) :
    ∀ (Q : List (Nat × String)) (res : List NewsItem) (i : Nat) (l : String),
      (i, l) ∈ Q → (Q.map Prod.fst).Nodup →
      (Q.foldl (enrichStep getImage) res)[i]? = (res[i]?).map (applyFetchAt getImage l) := by
  intro Q
  induction Q with
  | nil => intro res i l hm _; cases hm
  | cons q rest ih =>
      intro res i l hm hnd
      simp only [List.map_cons, List.nodup_cons] at hnd
      simp only [List.foldl_cons]
      rcases List.mem_cons.mp hm with hm2 | hm2
      · subst hm2
        rw [enrichFold_getElem?_untouched getImage rest (enrichStep getImage res (i, l)) i hnd.1]
        exact enrichStep_getElem?_self getImage res i l
      · have hne : q.1 ≠ i := by
          intro hq
          exact hnd.1 (hq ▸ List.mem_map.mpr ⟨(i, l), hm2, rfl⟩)
        rw [ih (enrichStep getImage res q) i l hm2 hnd.2]
        rw [enrichStep_getElem?_ne getImage res q i hne]

theorem scrapeQueue_nodup (results : List NewsItem) :
    ((scrapeQueue results).map Prod.fst).Nodup := by
  unfold scrapeQueue
  rw [List.map_map]
  have heq : (Prod.fst ∘ fun p : Nat × NewsItem => (p.1, p.2.link)) = Prod.fst := by
    funext p
    rfl
  rw [heq]
  have hsub : List.Sublist
      (((results.take 12).enum.filter (fun p => !pyTruthyOptStr p.2.image)).map Prod.fst)
      ((results.take 12).enum.map Prod.fst) :=
    (List.filter_sublist _).map Prod.fst
  exact (List.nodup_enum_map_fst _).sublist hsub

theorem scrapeQueue_mem_iff (results : List NewsItem) (i : Nat) (l : String) :
    (i, l) ∈ scrapeQueue results ↔
      ∃ it, results[i]? = some it ∧ i < 12 ∧ pyTruthyOptStr it.image = false ∧ l = it.link := by
  unfold scrapeQueue
  constructor
  · intro hm
    rcases List.mem_map.mp hm with ⟨p, hp, heq⟩
    rcases List.mem_filter.mp hp with ⟨hpe, hpf⟩
    obtain ⟨j, it⟩ := p
    have hj : (results.take 12)[j]? = some it := List.mk_mem_enum_iff_getElem?.mp hpe
    rw [List.getElem?_take] at hj
    cases heq
    by_cases hlt : j < 12
    · rw [if_pos hlt] at hj
      refine ⟨it, hj, hlt, ?_, rfl⟩
      simpa using hpf
    · rw [if_neg hlt] at hj
      cases hj
  · intro hm
    rcases hm with ⟨it, hit, hlt, hfal, hl⟩
    refine List.mem_map.mpr ⟨(i, it), ?_, by rw [hl]⟩
    refine List.mem_filter.mpr ⟨?_, by simp [hfal]⟩
    refine List.mk_mem_enum_iff_getElem?.mpr ?_
    rw [List.getElem?_take, if_pos hlt]
    exact hit

theorem tryHttpAt_take4 : ∀ {l m : List Char}, tryHttpAt l = some m →
    m.take 4 = [('h'), ('t'), ('t'), ('p')] := by
  intro l m h
  unfold tryHttpAt at h
  split at h
  · split at h
    · split at h
      · cases h
        rfl
      · cases h
    · split at h
      · cases h
        rfl
      · cases h
    · cases h
  · cases h

theorem findFirstHttpUrl_take4 : ∀ {l m : List Char}, findFirstHttpUrl l = some m →
    m.take 4 = [('h'), ('t'), ('t'), ('p')] := by
  intro l
  induction l with
  | nil => intro m h; cases h
  | cons c rest ih =>
      intro m h
      simp only [findFirstHttpUrl] at h
      split at h
      · cases h
        rename_i m2 hm2
        exact tryHttpAt_take4 hm2
      · exact ih h

/-! Claim theorems.  Each claim of the specification audit is settled by
exactly one theorem below; corrected claims additionally carry a
counterexample theorem refuting the original wording at a concrete
input. -/

/-- C6: the link resolver never raises for arbitrary string input: it is
a total function of the model, and every run either returns the input
unchanged (the guard branch and every failure path, including base64
decode failure and a decoded text with no embedded URL) or returns an
extracted URL, which necessarily starts with the four characters http. -/
theorem C6_resolve_never_raises (s : String) :
    decode_url s = s ∨ (decode_url s).data.take 4 = [('h'), ('t'), ('t'), ('p')] := by
  unfold decode_url
  split
  · exact Or.inl rfl
  · split
    · exact Or.inl rfl
    · split
      · exact Or.inl rfl
      · split
        · rename_i m hm
          right
          exact findFirstHttpUrl_take4 hm
        · exact Or.inl rfl

/-- The authority component of a URL: the text between the scheme
separator and the next slash.  This is what the specification calls the
host of the URL; it is used to state the original wording of the
resolver claim, which speaks about hosts while the code tests substring
containment anywhere in the URL. -/
def urlHost (u : String) : String :=
  match chFindSplit u.data ("://").data with
  | none => ""
  | some (_, rest) => String.mk (rest.takeWhile (fun c => c ≠ ('/')))

/-- A URL whose host is not the redirect domain but which contains the
redirect-domain text in its query string and a decodable token in its
path. -/
def c5Url : String := "https://evil.com/articles/aHR0cDovL2EuY28?x=news.google.com"

/-- C5 counterexample: the original claim promises that the resolver is
the identity on every URL whose host is not the aggregator redirect
domain, but the code tests substring containment over the whole URL, so
a URL hosted elsewhere that merely mentions the redirect domain in its
query string is decoded and rewritten. -/
theorem C5_counterexample_foreign_host :
    (urlHost c5Url == ("news.google.com")) = false
    ∧ (decode_url c5Url == c5Url) = false
    ∧ decode_url c5Url = ("http://a.co") := by
  refine ⟨by decide, by decide, by decide⟩

/-- C5 amended: the resolver is the identity on every string that does
not contain the redirect-domain text as a substring, or does not contain
the articles path text as a substring; containment is over the whole
URL, not over its host component. -/
theorem C5_resolve_identity_off_aggregator (x : String)
    (h : pyIn ("news.google.com") x = false ∨ pyIn ("articles/") x = false) :
    decode_url x = x := by
  unfold decode_url
  rcases h with h | h
  · rw [if_pos]
    simp [h]
  · rw [if_pos]
    simp [h]

/-- C5 witness: the amended identity at a concrete foreign URL. -/
theorem C5_resolve_identity_off_aggregator_witness :
    decode_url ("https://example.com/a") = ("https://example.com/a") :=
  C5_resolve_identity_off_aggregator ("https://example.com/a") (Or.inl (by decide))

/-- C7 counterexample: the claim speaks of the 38 listed district names,
but the source list IST_DISTRICTS holds 39 names, so no reading of the
claim matches the code list. -/
theorem C7_counterexample_district_count :
    IST_DISTRICTS.length = 39 ∧ (IST_DISTRICTS.length == 38) = false := by
  decide

/-- C7 amended: the relevance filter is case-insensitive through Python
lowering and returns true exactly when the token istanbul or its dotted
variant occurs in the lowered title, or the plain token occurs in the
lowered link, or one of the 39 listed district names occurs in the
lowered title; absent title or link reads as the empty string; the two
concrete examples of the specification evaluate as stated. -/
theorem C7_relevance_filter :
    (∀ t l : Option String, is_istanbul_related t l = true ↔
      (pyIn ("istanbul") (pyLower (t.getD (""))) = true ∨
       pyIn ("i̇stanbul") (pyLower (t.getD (""))) = true ∨
       pyIn ("istanbul") (pyLower (l.getD (""))) = true ∨
       ∃ d ∈ IST_DISTRICTS, pyIn d (pyLower (t.getD (""))) = true))
    ∧ IST_DISTRICTS.length = 39
    ∧ (∀ l, is_istanbul_related none l = is_istanbul_related (some ("")) l)
    ∧ (∀ t, is_istanbul_related t none = is_istanbul_related t (some ("")))
    ∧ is_istanbul_related (some ("İSTANBUL\x27da olay")) (some ("")) = true
    ∧ is_istanbul_related (some ("Ankara haberi")) (some ("")) = false := by
  refine ⟨?_, by decide, fun l => rfl, fun t => rfl, by decide, by decide⟩
  intro t l
  simp only [is_istanbul_related]
  by_cases hc : (pyIn ("istanbul") (pyLower (t.getD ("")))
      || pyIn ("i̇stanbul") (pyLower (t.getD ("")))
      || pyIn ("istanbul") (pyLower (l.getD ("")))) = true
  · rw [if_pos hc]
    simp only [Bool.or_eq_true] at hc
    constructor
    · intro _
      tauto
    · intro _
      rfl
  · rw [if_neg hc]
    simp only [Bool.or_eq_true] at hc
    push_neg at hc
    rw [List.any_eq_true]
    constructor
    · rintro ⟨d, hd, hpd⟩
      exact Or.inr (Or.inr (Or.inr ⟨d, hd, hpd⟩))
    · rintro (h | h | h | ⟨d, hd, hpd⟩)
      · exact absurd h hc.1.1
      · exact absurd h hc.1.2
      · exact absurd h hc.2
      · exact ⟨d, hd, hpd⟩

/-- C9: cache round trip and lazy eviction.  Writing a payload and
reading it back under the same clock returns exactly that payload with
the store untouched, even for an empty payload, because the stored tuple
is truthy regardless of its contents; and reading any stored entry whose
expiry lies strictly in the past returns absent and pops the key from
the store. -/
theorem C9_cache_roundtrip_and_eviction :
    (∀ (now : Int) (st : Store) (k : String) (p : List NewsItem),
      cache_get now (cache_set now st k p CACHE_TTL) k = (some p, cache_set now st k p CACHE_TTL))
    ∧ (∀ (now : Int) (st : Store) (k : String) (exp : Int) (p : List NewsItem),
      storeGet st k = some (exp, p) → now > exp →
      cache_get now st k = (none, storePop st k)) := by
  constructor
  · intro now st k p
    unfold cache_get cache_set
    rw [storeGet_storeSet]
    have hle : ¬ now > now + CACHE_TTL := by
      unfold CACHE_TTL
      omega
    simp [hle]
  · intro now st k exp p hget hexp
    unfold cache_get
    rw [hget]
    simp [hexp]

/-- C9 witness: the round trip and the eviction at concrete stores. -/
theorem C9_cache_roundtrip_and_eviction_witness :
    cache_get 7 (cache_set 7 [] ("k") [] CACHE_TTL) ("k")
      = (some [], cache_set 7 [] ("k") [] CACHE_TTL)
    ∧ cache_get 200 [(("k"), (100, []))] ("k") = (none, []) := by
  constructor
  · exact C9_cache_roundtrip_and_eviction.1 7 [] ("k") []
  · exact C9_cache_roundtrip_and_eviction.2 200 [(("k"), (100, []))] ("k") 100 [] (by decide)
      (by decide)

/-- An entry carrying a published time, for the mixed-feed sorting
scenario. -/
def entryWithTime : Entry :=
  ⟨some ("A"), none, some [2024, 3, 5, 14, 30, 0, 1, 65, 0], none, none, none, none, none⟩

/-- An entry without a published time. -/
def entryNoTime : Entry :=
  ⟨some ("B"), none, none, none, none, none, none, none⟩

/-- An HTTP oracle on which every fetch fails. -/
def failHttp : String → Except PyErr HttpResp := fun _ => .error .httpError

/-- An HTML parsing oracle on which every parse fails. -/
def failParse : String → Except PyErr (List Tag) := fun _ => .error .parseError

/-- C2: on a feed mixing entries with and without a published time, the
sort key or-fallback produces an integer zero for the timeless entry and
a time tuple for the dated one; comparing them raises TypeError in
Python 3, so the whole aggregation call raises instead of sorting the
timeless entry first.  The claim describes the intended minimum
sentinel, which the code only realizes when no entry or every entry
lacks the published time. -/
theorem C2_mixed_feed_sort_raises :
    fetch_google_news [entryWithTime, entryNoTime] failHttp failParse 0 [] ("q") ("d") 30 false
      = .error .typeError
    ∧ sortDescBy entryKey [entryWithTime, entryNoTime] = .error .typeError
    ∧ sortDescBy entryKey [entryNoTime, entryNoTime]
      = .ok [entryNoTime, entryNoTime] := by
  refine ⟨rfl, rfl, rfl⟩

/-- A store holding an unexpired empty payload under the key the
counterexample call computes. -/
def c1Store : Store := [(("d:q:1:False"), (1000, []))]

/-- C1 counterexample: the cache holds an unexpired payload (the empty
list) for the requested key, yet the aggregation does not return it:
the Python truthiness test on the cached list treats the empty payload
as a miss, so the call re-fetches, returns a different payload and
overwrites the entry. -/
theorem C1_counterexample_empty_cached_payload :
    storeGet c1Store (cache_key_of ("d") ("q") 1 false) = some (1000, [])
    ∧ (0 : Int) ≤ 1000
    ∧ fetch_google_news [entryNoTime] failHttp failParse 0 c1Store ("q") ("d") 1 false
      = .ok ([⟨("B"), (""), none, ("Haber"), ("--:--"), ("d")⟩],
             [(("d:q:1:False"), (180, [⟨("B"), (""), none, ("Haber"), ("--:--"), ("d")⟩]))])
    ∧ (([⟨("B"), (""), none, ("Haber"), ("--:--"), ("d")⟩] : List NewsItem) == []) = false := by
  refine ⟨rfl, by decide, by rfl, by decide⟩

/-- C1 amended: when the cache holds an unexpired and nonempty payload
for the computed key, the aggregation returns exactly that payload with
the store unchanged, independently of the feed and of both oracles, so
no feed fetch, normalization, filtering or enrichment can influence the
result.  An unexpired empty payload is instead treated as a miss and
recomputed, which is what the counterexample exhibits. -/
theorem C1_cache_hit_returns_nonempty_payload
    (feed : List Entry) (httpGet : String → Except PyErr HttpResp)
    (parseHtml : String → Except PyErr (List Tag)) (now : Int) (st : Store)
    (query district : String) (limit : Nat) (strict : Bool)
    (p : List NewsItem) (exp : Int)
    (hlook : storeGet st (cache_key_of district query limit strict) = some (exp, p))
    (hfresh : now ≤ exp) (hne : p.isEmpty = false) :
    fetch_google_news feed httpGet parseHtml now st query district limit strict
      = .ok (p, st) := by
  have hgt : ¬ now > exp := by omega
  simp only [fetch_google_news, cache_get]
  rw [hlook]
  simp [hgt, hne]

/-- C1 witness: the amended hit behavior at a concrete store holding a
one-item payload. -/
theorem C1_cache_hit_returns_nonempty_payload_witness :
    fetch_google_news [] failHttp failParse 0
        [(("d:q:1:False"), (1000, [⟨("B"), (""), none, ("Haber"), ("--:--"), ("d")⟩]))]
        ("q") ("d") 1 false
      = .ok ([⟨("B"), (""), none, ("Haber"), ("--:--"), ("d")⟩],
             [(("d:q:1:False"), (1000, [⟨("B"), (""), none, ("Haber"), ("--:--"), ("d")⟩]))]) :=
  C1_cache_hit_returns_nonempty_payload [] failHttp failParse 0
    [(("d:q:1:False"), (1000, [⟨("B"), (""), none, ("Haber"), ("--:--"), ("d")⟩]))]
    ("q") ("d") 1 false [⟨("B"), (""), none, ("Haber"), ("--:--"), ("d")⟩] 1000
    (by rfl) (by decide) (by rfl)

/-- On the miss path, a successful aggregation is exactly the enrichment
of the filtered normalization of the truncated sorted feed; this shape
lemma carries the shared unfolding for the claims about the pipeline. -/
theorem fetch_shape (feed : List Entry) (httpGet : String → Except PyErr HttpResp)
    (parseHtml : String → Except PyErr (List Tag)) (now : Int) (st : Store)
    (query district : String) (limit : Nat) (strict : Bool)
    (res : List NewsItem) (st2 : Store)
    (hmiss : ((cache_get now st (cache_key_of district query limit strict)).1.getD []) = [])
    (hok : fetch_google_news feed httpGet parseHtml now st query district limit strict
      = .ok (res, st2)) :
    ∃ sortedE, sortDescBy entryKey feed = .ok sortedE
      ∧ sortedE.length = feed.length
      ∧ res = enrichImages
          (buildResults parseHtml district strict (sortedE.take limit))
          (get_real_image httpGet parseHtml) := by
  simp only [fetch_google_news] at hok
  rcases hcg : cache_get now st (cache_key_of district query limit strict) with ⟨copt, st1⟩
  rw [hcg] at hok hmiss
  have hfresh : fetch_fresh feed httpGet parseHtml now st1 query district limit strict
      (cache_key_of district query limit strict) = .ok (res, st2) := by
    cases copt with
    | none => exact hok
    | some c =>
        simp only [Option.getD] at hmiss
        subst hmiss
        simpa using hok
  simp only [fetch_fresh] at hfresh
  cases hs : sortDescBy entryKey feed with
  | error e => rw [hs] at hfresh; cases hfresh
  | ok sortedE =>
      rw [hs] at hfresh
      refine ⟨sortedE, rfl, sortDescBy_length hs, ?_⟩
      cases hfresh
      rfl

/-- C10: on the miss path, a successful aggregation returns at most
limit items, and at most as many items as the feed holds: truncation to
the top limit entries happens before the strict filter, and the filter
and the enrichment can only keep or drop items, never restore entries
beyond the truncation window. -/
theorem C10_result_bounded_by_limit (feed : List Entry)
    (httpGet : String → Except PyErr HttpResp)
    (parseHtml : String → Except PyErr (List Tag)) (now : Int) (st : Store)
    (query district : String) (limit : Nat) (strict : Bool)
    (res : List NewsItem) (st2 : Store)
    (hmiss : ((cache_get now st (cache_key_of district query limit strict)).1.getD []) = [])
    (hok : fetch_google_news feed httpGet parseHtml now st query district limit strict
      = .ok (res, st2)) :
    res.length ≤ limit ∧ res.length ≤ feed.length := by
  rcases fetch_shape feed httpGet parseHtml now st query district limit strict res st2
    hmiss hok with ⟨sortedE, _, hlen, hres⟩
  have h1 : res.length ≤ (sortedE.take limit).length := by
    rw [hres]
    unfold enrichImages
    rw [enrichFold_length]
    exact buildResults_length_le parseHtml district strict _
  rw [List.length_take] at h1
  constructor
  · omega
  · rw [← hlen]
    omega

/-- C10 witness: a concrete three-entry feed with limit two on a fresh
store returns at most two items. -/
theorem C10_result_bounded_by_limit_witness :
    ((fetch_google_news [entryNoTime, entryNoTime, entryNoTime] failHttp failParse 0 []
        ("q") ("d") 2 false).map (fun r => r.1.length) = .ok 2)
    ∧ (2 ≤ 2 ∧ 2 ≤ 3) := by
  refine ⟨by rfl, ?_⟩
  exact C10_result_bounded_by_limit [entryNoTime, entryNoTime, entryNoTime] failHttp failParse
    0 [] ("q") ("d") 2 false
    [⟨("B"), (""), none, ("Haber"), ("--:--"), ("d")⟩,
     ⟨("B"), (""), none, ("Haber"), ("--:--"), ("d")⟩]
    [(("d:q:2:False"),
      (180, [⟨("B"), (""), none, ("Haber"), ("--:--"), ("d")⟩,
             ⟨("B"), (""), none, ("Haber"), ("--:--"), ("d")⟩]))]
    (by rfl) (by rfl)

theorem enrichStep_link (getImage : String → Option String) (res : List NewsItem)
    (q : Nat × String) (i : Nat) :
    ((enrichStep getImage res q)[i]?).map NewsItem.link = (res[i]?).map NewsItem.link := by
  unfold enrichStep
  split
  · split
    · rfl
    · by_cases hij : q.1 = i
      · subst hij
        rw [listModify_getElem?_self]
        cases res[q.1]? with
        | none => rfl
        | some it => rfl
      · rw [listModify_getElem?_ne _ _ _ _ hij]
  · rfl

theorem enrichImages_link (results : List NewsItem) (getImage : String → Option String)
    (i : Nat) :
    ((enrichImages results getImage)[i]?).map NewsItem.link
      = (results[i]?).map NewsItem.link := by
  unfold enrichImages
  generalize scrapeQueue results = Q
  induction Q generalizing results with
  | nil => rfl
  | cons q rest ih =>
      simp only [List.foldl_cons]
      rw [ih (enrichStep getImage results q)]
      exact enrichStep_link getImage results q i

/-- C3 counterexample: a feed entry without a link field passes through
the aggregation and produces an item whose link is the empty string, so
the claimed invariant that every produced link is nonempty fails. -/
theorem C3_counterexample_absent_link :
    (fetch_google_news [entryNoTime] failHttp failParse 0 [] ("q") ("d") 5 false).map
        (fun r => r.1.map NewsItem.link)
      = .ok [("")]
    ∧ String.isEmpty ("") = true := by
  refine ⟨by rfl, by decide⟩

/-- C3 amended: on the miss path, every item a successful aggregation
produces carries the resolver applied to some feed entry raw link,
where an absent raw link reads as the empty string; resolution is a
total function of the model, but the produced link may be empty exactly
when the raw link is absent or empty, so it is not always nonempty. -/
theorem C3_link_from_resolver (feed : List Entry)
    (httpGet : String → Except PyErr HttpResp)
    (parseHtml : String → Except PyErr (List Tag)) (now : Int) (st : Store)
    (query district : String) (limit : Nat) (strict : Bool)
    (res : List NewsItem) (st2 : Store)
    (hmiss : ((cache_get now st (cache_key_of district query limit strict)).1.getD []) = [])
    (hok : fetch_google_news feed httpGet parseHtml now st query district limit strict
      = .ok (res, st2)) :
    ∀ it ∈ res, ∃ e ∈ feed, it.link = decode_url (rawLink e) := by
  rcases fetch_shape feed httpGet parseHtml now st query district limit strict res st2
    hmiss hok with ⟨sortedE, hs, _, hres⟩
  intro it hit
  rcases List.mem_iff_getElem?.mp hit with ⟨i, hi⟩
  have hlink := enrichImages_link
    (buildResults parseHtml district strict (sortedE.take limit))
    (get_real_image httpGet parseHtml) i
  rw [← hres, hi] at hlink
  cases hb : (buildResults parseHtml district strict (sortedE.take limit))[i]? with
  | none => rw [hb] at hlink; cases hlink
  | some it0 =>
      rw [hb] at hlink
      have hmem : it0 ∈ buildResults parseHtml district strict (sortedE.take limit) := by
        rcases List.getElem?_eq_some.mp hb with ⟨hlt, hget⟩
        exact hget ▸ List.getElem_mem hlt
      rcases buildResults_mem parseHtml district strict _ it0 hmem with ⟨e, he, heq⟩
      refine ⟨e, ?_, ?_⟩
      · exact sortDescBy_mem hs e ((List.take_sublist limit sortedE).subset he)
      · have : it.link = it0.link := by
          simpa using hlink
        rw [this, heq]
        rfl

/-- C3 witness: the amended statement at a concrete one-entry feed with
an absent link, where the produced link is the resolver applied to the
empty string. -/
theorem C3_link_from_resolver_witness :
    ∃ e ∈ [entryNoTime],
      NewsItem.link ⟨("B"), (""), none, ("Haber"), ("--:--"), ("d")⟩ = decode_url (rawLink e) := by
  have h := C3_link_from_resolver [entryNoTime] failHttp failParse 0 [] ("q") ("d") 5 false
    [⟨("B"), (""), none, ("Haber"), ("--:--"), ("d")⟩]
    [(("d:q:5:False"), (180, [⟨("B"), (""), none, ("Haber"), ("--:--"), ("d")⟩]))]
    (by rfl) (by rfl)
  exact h ⟨("B"), (""), none, ("Haber"), ("--:--"), ("d")⟩ (by simp)

/-- C4: the enrichment batch is a total function of the model for every
fetch oracle, including the oracle on which every fetch fails, so the
batch itself never fails; the output keeps the length (hence the order,
index by index) of the input; and the item at every index is exactly
the input item, transformed only when its index is below twelve and its
image is falsy, in which case a successful nonempty fetch of its link
is written back with the insecure scheme upgraded and a failed or empty
fetch leaves the item, and in particular its absent image, unchanged.
The worker pool bound only schedules the fetches; because every future
writes to its own index, completion order cannot change this result. -/
theorem C4_enrichment_batch (results : List NewsItem) (getImage : String → Option String) :
    (enrichImages results getImage).length = results.length
    ∧ ∀ i : Nat, (enrichImages results getImage)[i]? =
        (results[i]?).map (fun it =>
          if i < 12 ∧ pyTruthyOptStr it.image = false then
            match getImage it.link with
            | some img =>
                if img.isEmpty then it else { it with image := some (upgradeScheme img) }
            | none => it
          else it) := by
  constructor
  · unfold enrichImages
    exact enrichFold_length getImage _ results
  · intro i
    cases hi : results[i]? with
    | none =>
        have hlen : (enrichImages results getImage).length = results.length := by
          unfold enrichImages
          exact enrichFold_length getImage _ results
        have hge : results.length ≤ i := by
          by_contra hlt
          push_neg at hlt
          rcases List.getElem?_eq_some.mpr ⟨hlt, rfl⟩ with h2
          rw [hi] at h2
          cases h2
        rw [List.getElem?_eq_none (by omega)]
        rfl
    | some it =>
        by_cases hc : i < 12 ∧ pyTruthyOptStr it.image = false
        · have hq : (i, it.link) ∈ scrapeQueue results :=
            (scrapeQueue_mem_iff results i it.link).mpr ⟨it, hi, hc.1, hc.2, rfl⟩
          have ht := enrichFold_getElem?_touched getImage (scrapeQueue results) results i
            it.link hq (scrapeQueue_nodup results)
          unfold enrichImages
          rw [ht, hi]
          simp [applyFetchAt, hc]
        · have hni : i ∉ (scrapeQueue results).map Prod.fst := by
            intro hmem
            rcases List.mem_map.mp hmem with ⟨q, hq, hfst⟩
            rcases (scrapeQueue_mem_iff results q.1 q.2).mp (by simpa using hq) with
              ⟨it2, hit2, hlt2, hfal2, _⟩
            rw [hfst] at hit2 hlt2
            rw [hi] at hit2
            cases hit2
            exact hc ⟨hlt2, hfal2⟩
          have hu := enrichFold_getElem?_untouched getImage (scrapeQueue results) results i hni
          unfold enrichImages
          rw [hu, hi]
          simp [hc]

/-- The selection get_real_image performs on a successfully parsed
document: the first og:image meta tag, or failing that the first
twitter:image meta tag, is consulted; only when that found tag carries a
truthy content attribute is the content returned, otherwise the img
fallback runs, even when the other meta tag carries content. -/
def extract_image (soup : List Tag) : Option String :=
  match (match findTag soup ("meta") [(("property"), ("og:image"))] with
         | some t => some t
         | none => findTag soup ("meta") [(("name"), ("twitter:image"))]) with
  | some t =>
      if pyTruthyOptStr (attrLookup t.attrs ("content")) then attrLookup t.attrs ("content")
      else imgSrcOf soup
  | none => imgSrcOf soup

/-- Modelled from the spec: the claimed priority chain returns, in
order, the Open Graph image meta tag content, then the Twitter card
image meta tag content, then the first img src, data-src and
data-lazy-src; each meta content is consulted independently, so an
og:image tag without usable content falls through to the twitter
content. -/
def spec_image_priority (soup : List Tag) : Option String :=
  let og := (findTag soup ("meta") [(("property"), ("og:image"))]).bind
    (fun t => attrLookup t.attrs ("content"))
  let tw := (findTag soup ("meta") [(("name"), ("twitter:image"))]).bind
    (fun t => attrLookup t.attrs ("content"))
  if pyTruthyOptStr og then og
  else if pyTruthyOptStr tw then tw
  else imgSrcOf soup

/-- A document with an og:image meta tag lacking a content attribute and
a twitter:image meta tag carrying one. -/
def c8Doc : List Tag :=
  [⟨("meta"), [(("property"), ("og:image"))]⟩,
   ⟨("meta"), [(("name"), ("twitter:image")), (("content"), ("https://t.example/img.png"))]⟩]

/-- An HTTP oracle returning a successful page for every URL. -/
def okHttp : String → Except PyErr HttpResp := fun _ => .ok ⟨200, ("page")⟩

/-- A parse oracle returning the two-meta-tag document. -/
def c8Parse : String → Except PyErr (List Tag) := fun _ => .ok c8Doc

/-- C8 counterexample: the claimed priority order would fall back to the
Twitter card content when the Open Graph tag has none, but the code
binds the found og:image tag first and tests only its content, so it
skips directly to the img fallback and returns absent while the claimed
chain returns the twitter content. -/
theorem C8_counterexample_og_shadows_twitter :
    get_real_image okHttp c8Parse ("https://x.example/a") = none
    ∧ spec_image_priority c8Doc = some ("https://t.example/img.png")
    ∧ extract_image c8Doc = none := by
  refine ⟨by rfl, by rfl, by rfl⟩

/-- C8 amended: the scraper returns absent on an empty URL, on any
fetch failure, on any HTTP status at least 400 and on any parse
failure; on a successful fetch below status 400 it parses only the
first 140000 code points of the body and returns the selection of
extract_image: the content of the first og:image meta tag if that tag
exists with truthy content, else, only when no og:image tag exists at
all, the content of the first twitter:image meta tag if truthy, and
otherwise the first img src, data-src or data-lazy-src; an og:image tag
with absent or empty content suppresses the twitter fallback. -/
theorem C8_get_real_image_behavior (httpGet : String → Except PyErr HttpResp)
    (parseHtml : String → Except PyErr (List Tag)) (url : String) :
    (url.isEmpty = true → get_real_image httpGet parseHtml url = none)
    ∧ (∀ e, url.isEmpty = false → httpGet url = .error e →
        get_real_image httpGet parseHtml url = none)
    ∧ (∀ r, url.isEmpty = false → httpGet url = .ok r → 400 ≤ r.status →
        get_real_image httpGet parseHtml url = none)
    ∧ (∀ r e2, url.isEmpty = false → httpGet url = .ok r → r.status < 400 →
        parseHtml (String.mk (r.text.data.take 140000)) = .error e2 →
        get_real_image httpGet parseHtml url = none)
    ∧ (∀ r soup, url.isEmpty = false → httpGet url = .ok r → r.status < 400 →
        parseHtml (String.mk (r.text.data.take 140000)) = .ok soup →
        get_real_image httpGet parseHtml url = extract_image soup) := by
  refine ⟨?_, ?_, ?_, ?_, ?_⟩
  · intro he
    unfold get_real_image
    rw [if_pos he]
  · intro e he hg
    unfold get_real_image
    rw [if_neg (by simp [he]), hg]
  · intro r he hg hs
    unfold get_real_image
    rw [if_neg (by simp [he]), hg]
    simp [hs]
  · intro r e2 he hg hs hp
    unfold get_real_image
    rw [if_neg (by simp [he]), hg]
    have h4 : ¬ 400 ≤ r.status := by omega
    simp [h4, hp]
  · intro r soup he hg hs hp
    unfold get_real_image extract_image
    rw [if_neg (by simp [he]), hg]
    have h4 : ¬ 400 ≤ r.status := by omega
    simp [h4, hp]

/-- C8 witness: the amended behavior at concrete oracles, one per
branch. -/
theorem C8_get_real_image_behavior_witness :
    get_real_image okHttp c8Parse ("") = none
    ∧ get_real_image failHttp c8Parse ("u") = none
    ∧ get_real_image (fun _ => .ok ⟨404, ("x")⟩) c8Parse ("u") = none
    ∧ get_real_image okHttp failParse ("u") = none
    ∧ get_real_image okHttp c8Parse ("u") = extract_image c8Doc := by
  refine ⟨?_, ?_, ?_, ?_, ?_⟩
  · exact (C8_get_real_image_behavior okHttp c8Parse ("")).1 (by decide)
  · exact (C8_get_real_image_behavior failHttp c8Parse ("u")).2.1 .httpError (by decide) rfl
  · exact (C8_get_real_image_behavior (fun _ => .ok ⟨404, ("x")⟩) c8Parse ("u")).2.2.1
      ⟨404, ("x")⟩ (by decide) rfl (by decide)
  · exact (C8_get_real_image_behavior okHttp failParse ("u")).2.2.2.1 ⟨200, ("page")⟩
      .parseError (by decide) rfl (by decide) rfl
  · exact (C8_get_real_image_behavior okHttp c8Parse ("u")).2.2.2.2 ⟨200, ("page")⟩ c8Doc
      (by decide) rfl (by decide) rfl

end App
